import Mathlib

/-!
A verification development for the openclaw-supermemory sync daemon.

The daemon (sm-daemon.js) incrementally uploads conversation logs to a
remote service.  This file gives a shallow embedding of its pure logic:
the resilient API-call executor with timeout/retry/backoff, the
log scrubber, the container-tag validation, the incremental batcher
(syncOnce) with its mutable-state semantics, and the shell control
script (sm-control.sh) with its stale-PID detection.  Machine state
mutation is modelled by explicit state passing; the JavaScript
aliasing between the per-source record `ss` and `state.sessions[key]`
is modelled by an explicit `present` flag on every mutation step.
-/

set_option maxRecDepth 100000

namespace SMSync

/-! ## Errors and attempt outcomes (apiCallWithRetry, sm-daemon.js lines 148-188) -/

/-- A JavaScript error value as observed by `apiCallWithRetry`:
its `name`, optional HTTP `statusCode`, and `message`. -/
structure JsError where
  name : String
  statusCode : Option Nat
  message : String
deriving DecidableEq

/-- The name carried by a DOMException raised when an AbortController fires. -/
def abortName : String := "AbortError"

/-- The error surfaced when the executor's own per-attempt timeout aborts the
in-flight call (`setTimeout(() => controller.abort(), ...)`): the call rejects
with an AbortError, indistinguishable by name from a caller-initiated abort. -/
def abortError : JsError := ⟨abortName, none, "This operation was aborted"⟩

/-- Outcome of one attempt of the wrapped operation: success, rejection with a
JavaScript error, or expiry of the executor's per-attempt timeout (which
surfaces as `abortError`). -/
inductive AttemptOutcome (α : Type) where
  | ok (value : α)
  | fail (e : JsError)
  | timeout
deriving DecidableEq

/-- The error the `catch` block receives for a given attempt outcome. -/
def attemptError {α : Type} : AttemptOutcome α → Option JsError
  | .ok _ => none
  | .fail e => some e
  | .timeout => some abortError

/-- Embeds sm-daemon.js line 168: `err.statusCode && err.statusCode >= 400 &&
err.statusCode < 500 && err.statusCode !== 429`. -/
def isClientError (e : JsError) : Bool :=
  match e.statusCode with
  | some s => 400 ≤ s && s < 500 && s ≠ 429
  | none => false

instance {ε α : Type} [DecidableEq ε] [DecidableEq α] : DecidableEq (Except ε α) := fun x y =>
  match x, y with
  | .ok a, .ok b =>
    if h : a = b then isTrue (by rw [h]) else isFalse (fun hc => h (Except.ok.inj hc))
  | .error a, .error b =>
    if h : a = b then isTrue (by rw [h]) else isFalse (fun hc => h (Except.error.inj hc))
  | .ok _, .error _ => isFalse (fun hc => Except.noConfusion hc)
  | .error _, .ok _ => isFalse (fun hc => Except.noConfusion hc)

/-- Result of `apiCallWithRetry`: the value returned or the error finally
thrown (`none` models JavaScript throwing `undefined` when no attempt ran),
the number of attempts actually executed, and the backoff delays slept
(in milliseconds, chronological). -/
structure RetryResult (α : Type) where
  result : Except (Option JsError) α
  attemptsMade : Nat
  delays : List ℚ
deriving DecidableEq

/-- Embeds sm-daemon.js lines 135-140: exponential backoff
`Math.min(CONFIG.API_RETRY_BASE_DELAY_MS * Math.pow(2, attempt) + Math.random() * 1000, 30000)`.
The jitter (`Math.random() * 1000`, a value in `[0, 1000)`) is passed in
explicitly so the function is deterministic. -/
def getRetryDelay (baseDelayMs : ℚ) (attempt : Nat) (jitter : ℚ) : ℚ :=
  min (baseDelayMs * 2 ^ attempt + jitter) 30000

/-- The retry loop of sm-daemon.js lines 151-184, one constructor case per
iteration; `fuel` is the number of loop iterations left
(`retryAttempts - attempt`), `attempt` the zero-based attempt about to run. -/
def apiCallLoop {α : Type} (op : Nat → AttemptOutcome α) (baseDelayMs : ℚ)
    (jit : Nat → ℚ) (retryAttempts : Nat) :
    Nat → Nat → Option JsError → List ℚ → RetryResult α
  | 0, attempt, lastError, delays => ⟨.error lastError, attempt, delays.reverse⟩
  | fuel + 1, attempt, _lastError, delays =>
    match op attempt with
    | .ok v => ⟨.ok v, attempt + 1, delays.reverse⟩
    | outcome =>
      let e := (attemptError outcome).getD abortError
      if isClientError e then ⟨.error (some e), attempt + 1, delays.reverse⟩
      else if e.name = abortName then ⟨.error (some e), attempt + 1, delays.reverse⟩
      else if attempt < retryAttempts - 1 then
        apiCallLoop op baseDelayMs jit retryAttempts fuel (attempt + 1) (some e)
          (getRetryDelay baseDelayMs attempt (jit attempt) :: delays)
      else
        apiCallLoop op baseDelayMs jit retryAttempts fuel (attempt + 1) (some e) delays

/-- Embeds sm-daemon.js lines 148-188, `apiCallWithRetry`: run `op` up to
`retryAttempts` times.  4xx statuses other than 429 and any error named
`AbortError` are re-raised without retry; other failures are retried after a
backoff sleep; on exhaustion the last error is re-raised. -/
def apiCallWithRetry {α : Type} (op : Nat → AttemptOutcome α) (baseDelayMs : ℚ)
    (jit : Nat → ℚ) (retryAttempts : Nat) : RetryResult α :=
  apiCallLoop op baseDelayMs jit retryAttempts retryAttempts 0 none []

/-! ## String helpers over character lists

Core `String` functions implemented by well-founded recursion do not reduce
inside the kernel, so the string operations the daemon uses are given here as
structurally recursive functions over `List Char`. -/

/-- `startsWithCh needle hay` decides whether `needle` is an initial segment
of `hay` (JavaScript `String.prototype.startsWith`). -/
def startsWithCh : List Char → List Char → Bool
  | [], _ => true
  | _ :: _, [] => false
  | a :: as, b :: bs => a = b && startsWithCh as bs

/-- `containsSub needle hay` decides whether `needle` occurs inside `hay`
(JavaScript `String.prototype.includes`, bash `[[ a == *b* ]]`). -/
def containsSub (needle : List Char) : List Char → Bool
  | [] => startsWithCh needle []
  | c :: cs => startsWithCh needle (c :: cs) || containsSub needle cs

/-! ## Container tag validation (getContainerTag, sm-daemon.js lines 19-44) -/

/-- Embeds sm-daemon.js line 29: placeholder values rejected for `SM_CONTAINER_TAG`. -/
def invalidTags : List String :=
  ["your-name", "your_name", "yourname", "test", "example", ""]

/-- The whitespace class used for `trim` (ASCII members; the values considered
here contain no Unicode whitespace). -/
def isTrimSpace (c : Char) : Bool :=
  (c = ' ' || c = '\t' || c = '\n' || c = '\r' || c = Char.ofNat 11 || c = Char.ofNat 12)

/-- JavaScript `String.prototype.trim`: strip leading and trailing whitespace. -/
def jsTrim (s : String) : String :=
  String.mk (((s.data.dropWhile isTrimSpace).reverse.dropWhile isTrimSpace).reverse)

/-- JavaScript `String.prototype.toLowerCase` (ASCII). -/
def lowerStr (s : String) : String :=
  String.mk (s.data.map Char.toLower)

/-- Embeds sm-daemon.js lines 19-44, `getContainerTag`.  The argument is the value of
the `SM_CONTAINER_TAG` environment variable (`none` when unset).  `Except Nat`
models `process.exit` with the given non-zero code.  An unset or empty value is
falsy in JavaScript (`if (!tag)`) and falls back to `"default"` with a warning;
a set value is trimmed, checked against the placeholder list
(case-insensitively) and against the minimum length 2. -/
def getContainerTag (envTag : Option String) : Except Nat String :=
  match envTag with
  | none => .ok ("default")
  | some tag =>
    if tag = "" then .ok ("default")
    else
      let normalizedTag := lowerStr (jsTrim tag)
      if normalizedTag ∈ invalidTags then .error 1
      else if (jsTrim tag).length < 2 then .error 1
      else .ok (jsTrim tag)

/-! ## Log scrubber (sm-daemon.js lines 68-87)

The four `SENSITIVE_PATTERNS` regexes use only literals and character
classes with `?` / `+` quantifiers, so they are embedded with a small
backtracking matcher over `List Char` implementing JavaScript semantics:
leftmost match, greedy quantifiers with backtracking, `g`-flag global
replacement scanning the original string. -/

/-- Quantifier on a character class: exactly one, `?` (zero or one, greedy),
or `+` (one or more, greedy). -/
inductive Quant where
  | one
  | opt
  | plus

/-- One item of a regex: a literal (case-insensitive when `ci` is true, the
`i` flag) or a quantified character class. -/
inductive RegexItem where
  | lit (s : List Char) (ci : Bool)
  | cls (p : Char → Bool) (q : Quant)

/-- Character comparison honouring the `i` flag. -/
def charEqCi (ci : Bool) (a b : Char) : Bool :=
  if ci then a.toLower = b.toLower else a = b

/-- Strip a literal from the front of the input, if it matches. -/
def stripLit (ci : Bool) : List Char → List Char → Option (List Char)
  | [], cs => some cs
  | _ :: _, [] => none
  | a :: as, c :: cs => if charEqCi ci a c then stripLit ci as cs else none

/-- Anchored regex match with greedy backtracking: `reMatch fuel items cs`
returns the remainder of `cs` after the preferred (leftmost-greedy) match of
`items` at the start of `cs`, or `none`.  Every recursive call removes an item
or consumes a character, so `fuel = items.length + cs.length + 1` suffices. -/
def reMatch : Nat → List RegexItem → List Char → Option (List Char)
  | 0, _, _ => none
  | _ + 1, [], cs => some cs
  | fuel + 1, .lit s ci :: rest, cs =>
    match stripLit ci s cs with
    | some cs' => reMatch fuel rest cs'
    | none => none
  | _ + 1, .cls _ .one :: _, [] => none
  | fuel + 1, .cls p .one :: rest, c :: cs =>
    if p c then reMatch fuel rest cs else none
  | fuel + 1, .cls _ .opt :: rest, [] => reMatch fuel rest []
  | fuel + 1, .cls p .opt :: rest, c :: cs =>
    if p c then
      match reMatch fuel rest cs with
      | some r => some r
      | none => reMatch fuel rest (c :: cs)
    else reMatch fuel rest (c :: cs)
  | _ + 1, .cls _ .plus :: _, [] => none
  | fuel + 1, .cls p .plus :: rest, c :: cs =>
    if p c then
      match reMatch fuel (.cls p .plus :: rest) cs with
      | some r => some r
      | none => reMatch fuel rest cs
    else none

/-- Global (`g`-flag) replacement: scan the input left to right, replacing
each leftmost match and continuing after it; on a zero-width match advance one
character, as JavaScript does. -/
def replaceLoop (items : List RegexItem) (rep : List Char) : Nat → List Char → List Char
  | 0, cs => cs
  | _ + 1, [] => []
  | fuel + 1, c :: cs =>
    match reMatch (items.length + (c :: cs).length + 1) items (c :: cs) with
    | some rest =>
      if rest.length < (c :: cs).length then rep ++ replaceLoop items rep fuel rest
      else rep ++ c :: replaceLoop items rep fuel cs
    | none => c :: replaceLoop items rep fuel cs

/-- `String.prototype.replace` with a `g`-flag regex built from `items`. -/
def regexReplace (items : List RegexItem) (rep : List Char) (s : List Char) : List Char :=
  replaceLoop items rep (s.length + 1) s

/-- The class `[a-zA-Z0-9_]` (ASCII). -/
def isTokenChar (c : Char) : Bool :=
  (('a' ≤ c && c ≤ 'z') || ('A' ≤ c && c ≤ 'Z') || ('0' ≤ c && c ≤ '9') || c = '_')

/-- The class `\s` restricted to its ASCII members (the inputs considered here
contain no Unicode whitespace). -/
def isJsSpace (c : Char) : Bool :=
  (c = ' ' || c = '\t' || c = '\n' || c = '\r' || c = Char.ofNat 11 || c = Char.ofNat 12)

/-- The class `[:\s=]`. -/
def isColonSpaceEq (c : Char) : Bool :=
  (c = ':' || isJsSpace c || c = '=')

/-- The class `["']` (34 and 39 are the double and single quote). -/
def isQuote (c : Char) : Bool :=
  (c = Char.ofNat 34 || c = Char.ofNat 39)

/-- The class `[^\s"']`. -/
def isValueChar (c : Char) : Bool :=
  !(isJsSpace c || isQuote c)

/-- The class `[_-]`. -/
def isUnderscoreDash (c : Char) : Bool :=
  (c = '_' || c = '-')

/-- The class `[a-zA-Z0-9_\.\-]`. -/
def isBearerChar (c : Char) : Bool :=
  (isTokenChar c || c = '.' || c = '-')

/-- Embeds sm-daemon.js lines 68-73, `SENSITIVE_PATTERNS`, in source order:
pattern and replacement for
`/sm_[a-zA-Z0-9_]+/g`, `/api[_-]?key[:\s=]+["']?[^\s"']+["']?/gi`,
`/authorization[:\s=]+["']?[^\s"']+["']?/gi` and `/bearer\s+[a-zA-Z0-9_\.\-]+/gi`. -/
def sensitivePatterns : List (List RegexItem × List Char) :=
  [([.lit ("sm_").data false, .cls isTokenChar .plus],
    "[REDACTED_API_KEY]".data),
   ([.lit ("api").data true, .cls isUnderscoreDash .opt, .lit ("key").data true,
     .cls isColonSpaceEq .plus, .cls isQuote .opt, .cls isValueChar .plus,
     .cls isQuote .opt],
    "api_key=[REDACTED]".data),
   ([.lit ("authorization").data true, .cls isColonSpaceEq .plus,
     .cls isQuote .opt, .cls isValueChar .plus, .cls isQuote .opt],
    "authorization=[REDACTED]".data),
   ([.lit ("bearer").data true, .cls isJsSpace .plus, .cls isBearerChar .plus],
    "Bearer [REDACTED]".data)]

/-- A JavaScript value reaching `scrubSensitiveData`: a string or one of the
non-string shapes (`typeof msg !== 'string'`). -/
inductive JsValue where
  | str (s : String)
  | num (q : ℚ)
  | boolean (b : Bool)
  | null
  | undefined
deriving DecidableEq

/-- Embeds sm-daemon.js lines 80-87, `scrubSensitiveData`: non-string input passes
through unchanged; a string is run through each sensitive pattern in order,
each replacement applied globally to the result of the previous one. -/
def scrubSensitiveData (msg : JsValue) : JsValue :=
  match msg with
  | .str s =>
    .str (String.mk (sensitivePatterns.foldl
      (fun scrubbed pr => regexReplace pr.1 pr.2 scrubbed) s.data))
  | v => v

/-! ## Session records (readMessages, sm-daemon.js lines 206-241) -/

/-- One element of an array-valued `message.content`. -/
structure Part where
  ptype : String
  text : String
deriving DecidableEq

/-- The parsed `message.content` of a record: a string, an array of typed
parts, or any other JSON value (carried as its `JSON.stringify` rendering). -/
inductive Content where
  | str (s : String)
  | arr (parts : List Part)
  | other (stringified : String)
deriving DecidableEq

/-- One line of a session file, by parse outcome: whitespace-only, not valid
JSON (`JSON.parse` throws), valid JSON but not a message record
(`record.type !== 'message' || !record.message`), or a message with a role,
content and the two candidate timestamps (`record.message.timestamp` and
`record.timestamp`). -/
inductive Line where
  | blank
  | unparsable
  | nonMessage
  | message (role : String) (content : Content) (msgTs : Option Nat) (recTs : Option Nat)
deriving DecidableEq

/-- A record pushed by `readMessages` (sm-daemon.js lines 229-232). -/
structure Msg where
  role : String
  text : String
  timestamp : Option Nat
  lineNum : Nat
deriving DecidableEq

/-- JavaScript `a || b` on optional numeric timestamps (`0` is falsy). -/
def jsOrTs (a b : Option Nat) : Option Nat :=
  match a with
  | some t => if t ≠ 0 then some t else b
  | none => b

/-- JavaScript truthiness of an optional numeric timestamp. -/
def tsTruthy : Option Nat → Bool
  | some t => t ≠ 0
  | none => false

/-- Embeds sm-daemon.js lines 221-225: extract the text of a message content. -/
def textOfContent : Content → String
  | .str s => s
  | .arr parts =>
    String.intercalate ("\n") ((parts.filter (fun p => p.ptype = "text")).map (fun p => p.text))
  | .other j => j

/-- Embeds sm-daemon.js lines 217-232: the message produced by one line (at 1-based
line number `ln`), or `none` when the line is filtered out: non-message lines,
roles other than user/assistant, empty text, heartbeat sentinels.  The kept
text is truncated to 5000 characters and the timestamp falls back from
`message.timestamp` to `record.timestamp`. -/
def msgOfLine (ln : Nat) : Line → Option Msg
  | .message role content msgTs recTs =>
    if role ≠ "user" ∧ role ≠ "assistant" then none
    else
      let text := textOfContent content
      if jsTrim text = "" ∨ text = "HEARTBEAT_OK" ∨
          startsWithCh ("Read HEARTBEAT.md").data text.data then none
      else some ⟨role, String.mk (text.data.take 5000), jsOrTs msgTs recTs, ln⟩
  | _ => none

/-- The loop of `readMessages`: `lineNum` counts lines already seen; lines at
positions `≤ offsetLines` are skipped, the rest go through `msgOfLine`. -/
def readMsgsAux (offsetLines : Nat) : List Line → Nat → List Msg × Nat
  | [], lineNum => ([], lineNum)
  | l :: rest, lineNum =>
    let ln := lineNum + 1
    let r := readMsgsAux offsetLines rest ln
    if ln ≤ offsetLines then r
    else
      match msgOfLine ln l with
      | some m => (m :: r.1, r.2)
      | none => r

/-- Embeds sm-daemon.js lines 206-241, `readMessages`: the qualifying messages
strictly after `offsetLines` and the total number of lines in the file. -/
def readMessages (lines : List Line) (offsetLines : Nat) : List Msg × Nat :=
  readMsgsAux offsetLines lines 0

/-! ## Sync state and its mutation steps (sm-daemon.js lines 97-115, 247-307)

`state` is a single mutable JavaScript object.  Inside `syncOnce` the local
`ss` aliases `state.sessions[key]` when the key is already present, so
mutations of `ss` are immediately visible in `state`; for a new key `ss` is a
fresh object that only enters `state` at the `state.sessions[session.key] = ss`
assignment (line 303).  Each mutating statement of `syncOnce` is modelled as a
`MutStep` carrying a `present` flag recording whether `ss` aliased the state
at that moment, and the in-memory state is the fold of those steps. -/

/-- Per-source sync state, `{ lastLine, batchCount }` (sm-daemon.js line 252). -/
structure SessState where
  lastLine : Nat
  batchCount : Nat
deriving DecidableEq

/-- The daemon state object, `{ sessions, totalSynced, lastSyncTime }`
(sm-daemon.js line 104); `sessions` is an insertion-ordered key/value map. -/
structure SyncState where
  sessions : List (String × SessState)
  totalSynced : Nat
  lastSyncTime : Nat
deriving DecidableEq

/-- Lookup in the sessions map. -/
def lookupSess : List (String × SessState) → String → Option SessState
  | [], _ => none
  | (k', v) :: rest, k => if k' = k then some v else lookupSess rest k

/-- Insert-or-replace in the sessions map (JavaScript property assignment). -/
def setSess : List (String × SessState) → String → SessState → List (String × SessState)
  | [], k, v => [(k, v)]
  | (k', v') :: rest, k, v =>
    if k' = k then (k, v) :: rest else (k', v') :: setSess rest k v

/-- Update the entry at a key, if present, in the sessions map. -/
def mapSess : List (String × SessState) → String → (SessState → SessState) →
    List (String × SessState)
  | [], _, _ => []
  | (k', v) :: rest, k, f => (k', if k' = k then f v else v) :: mapSess rest k f

/-- One mutating statement executed by `syncOnce`, in program order:
`ss.batchCount = batchIndex` (line 292), `state.totalSynced += batch.length`
(line 293), `saveState(state)` (lines 297 and 305), `ss.lastLine = totalLines`
(line 302), `state.sessions[session.key] = ss` (line 303), and
`state.lastSyncTime = Date.now()` (line 304).  The `present` flag records
whether `ss` aliased `state.sessions[key]` when the statement ran. -/
inductive MutStep where
  | setBatchCount (key : String) (present : Bool) (idx : Nat)
  | incTotalSynced (n : Nat)
  | persist
  | setLastLine (key : String) (present : Bool) (v : Nat)
  | storeSession (key : String) (ss : SessState)
  | setLastSyncTime (t : Nat)
deriving DecidableEq

/-- Effect of one step on the live in-memory state.  Mutations of a
non-aliased `ss` (`present = false`) do not touch the state; `persist` writes
to disk only. -/
def applyMut (st : SyncState) : MutStep → SyncState
  | .setBatchCount k true idx =>
    { st with sessions := mapSess st.sessions k (fun ss => { ss with batchCount := idx }) }
  | .setBatchCount _ false _ => st
  | .incTotalSynced n => { st with totalSynced := st.totalSynced + n }
  | .persist => st
  | .setLastLine k true v =>
    { st with sessions := mapSess st.sessions k (fun ss => { ss with lastLine := v }) }
  | .setLastLine _ false _ => st
  | .storeSession k ss => { st with sessions := setSess st.sessions k ss }
  | .setLastSyncTime t => { st with lastSyncTime := t }

/-- The daemon's world: the live in-memory state object and the last state
written to the state file (`none` before any write). -/
structure World where
  live : SyncState
  disk : Option SyncState
deriving DecidableEq

/-- `saveState(arg)` (sm-daemon.js lines 107-115): writes its argument to the
state file. -/
def saveStateTo (st : SyncState) (w : World) : World :=
  ⟨w.live, some st⟩

/-- Effect of one step on the world: `persist` is `saveState(state)` with the
live state; every other step mutates the live state only. -/
def applyStep (w : World) : MutStep → World
  | .persist => saveStateTo w.live w
  | s => ⟨applyMut w.live s, w.disk⟩

/-- Embeds sm-daemon.js lines 334-338: the shutdown handler closes over the live
state object (`currentState`) and persists it — not a reloaded copy. -/
def shutdown (currentState : SyncState) (w : World) : World :=
  saveStateTo currentState w

/-! ## The incremental batcher (syncOnce, sm-daemon.js lines 247-307) -/

/-- A discovered source (one entry of `getSessionFiles`): its key in the
sessions metadata, its session id, and the lines of its session file. -/
structure Source where
  key : String
  id : String
  lines : List Line

/-- The configuration fields `syncOnce` and `apiCallWithRetry` read
(sm-daemon.js lines 46-59); the per-batch record count is
`batchSizePairs * 2` (line 260). -/
structure Config where
  containerTag : String
  batchSizePairs : Nat
  minNewMessages : Nat
  retryAttempts : Nat
  baseDelayMs : ℚ

/-- Ambient effects: `new Date(t).toISOString()`, `new Date().toISOString()`,
`Date.now()`, and the per-attempt backoff jitter `Math.random() * 1000`. -/
structure Env where
  iso : Nat → String
  isoNow : String
  now : Nat
  jit : Nat → ℚ

/-- The argument of `client.add` (sm-daemon.js lines 281-288). -/
structure UploadCall where
  content : String
  containerTag : String
  customId : String
  metadata : List (String × String)
deriving DecidableEq

/-- One attempted batch upload, as observed at the `apiCallWithRetry` call
site: source key, the batch index used, the call made, the number of records
in the batch, and whether the call (after retries) succeeded. -/
structure UploadRec where
  sourceKey : String
  batchIndex : Nat
  call : UploadCall
  msgCount : Nat
  ok : Bool
deriving DecidableEq

/-- `s.split('T')[0]` for an ISO date-time string. -/
def dateOfIso (s : String) : String :=
  String.mk (s.data.takeWhile (fun c => c ≠ 'T'))

/-- Embeds sm-daemon.js lines 266-269: one transcript line `[ts] [role]: text`. -/
def renderMsg (env : Env) (m : Msg) : String :=
  let ts := if tsTruthy m.timestamp then env.iso (m.timestamp.getD 0) else ("unknown")
  "[" ++ ts ++ "] [" ++ m.role ++ "]: " ++ m.text

/-- Embeds sm-daemon.js lines 266-288: the `client.add` argument for one batch. -/
def buildCall (cfg : Config) (env : Env) (source : Source) (batchIndex : Nat)
    (batch : List Msg) : UploadCall :=
  let firstTs := (batch.headD ⟨"", "", none, 0⟩).timestamp
  let sessionDate :=
    if tsTruthy firstTs then dateOfIso (env.iso (firstTs.getD 0))
    else dateOfIso env.isoNow
  { content := String.intercalate ("\n\n") (batch.map (renderMsg env))
    containerTag := cfg.containerTag
    customId := "session-" ++ source.id ++ "-batch-" ++ toString batchIndex
    metadata := [("type", "conversation"), ("session_key", source.key),
                 ("session_id", source.id), ("batch_id", toString batchIndex),
                 ("session_date", sessionDate),
                 ("message_count", toString batch.length)] }

/-- The slicing loop `for (let i = 0; i < messages.length; i += batchSize)`
(sm-daemon.js line 261): consecutive chunks of `batchSize` records, the last
possibly shorter.  Fuel-driven; `ms.length` iterations suffice whenever
`batchSize ≥ 1`. -/
def chunkAux (batchSize : Nat) : Nat → List Msg → List (List Msg)
  | 0, _ => []
  | _ + 1, [] => []
  | fuel + 1, ms => ms.take batchSize :: chunkAux batchSize fuel (ms.drop batchSize)

/-- The batches considered by the batch loop. -/
def chunkList (batchSize : Nat) (ms : List Msg) : List (List Msg) :=
  chunkAux batchSize ms.length ms

/-- Output of the batch loop for one source: the final local `ss`, the
mutation steps executed, the uploads attempted, and whether the loop aborted
the pass (`return` on line 298). -/
structure BatchOut where
  ss : SessState
  steps : List MutStep
  uploads : List UploadRec
  aborted : Bool

/-- Embeds sm-daemon.js lines 261-300, the per-source batch loop: skip batches of
fewer than 2 records; otherwise upload batch `ss.batchCount + 1` through
`apiCallWithRetry`.  On success, record `ss.batchCount = batchIndex` and
`state.totalSynced += batch.length` and continue; on failure, record
`saveState(state)` and abort the whole pass. -/
def batchLoop (cfg : Config) (env : Env) (beh : UploadCall → Nat → AttemptOutcome Unit)
    (source : Source) (present : Bool) : List (List Msg) → SessState → BatchOut
  | [], ss => ⟨ss, [], [], false⟩
  | batch :: restChunks, ss =>
    if batch.length < 2 then batchLoop cfg env beh source present restChunks ss
    else
      let batchIndex := ss.batchCount + 1
      let call := buildCall cfg env source batchIndex batch
      match (apiCallWithRetry (beh call) cfg.baseDelayMs env.jit cfg.retryAttempts).result with
      | .ok _ =>
        let rest := batchLoop cfg env beh source present restChunks
          { ss with batchCount := batchIndex }
        ⟨rest.ss,
         .setBatchCount source.key present batchIndex :: .incTotalSynced batch.length :: rest.steps,
         ⟨source.key, batchIndex, call, batch.length, true⟩ :: rest.uploads,
         rest.aborted⟩
      | .error _ =>
        ⟨ss, [.persist], [⟨source.key, batchIndex, call, batch.length, false⟩], true⟩

/-- Output of processing one source: resulting live state, steps, uploads,
and whether the pass was aborted. -/
structure SrcOut where
  state : SyncState
  steps : List MutStep
  uploads : List UploadRec
  aborted : Bool

/-- Embeds sm-daemon.js lines 251-306, the body of the per-source loop: look up (or
default) `ss`, read the new messages after `ss.lastLine`; skip the source if
fewer than `minNewMessages` qualify; otherwise run the batch loop, and unless
it aborted, set `ss.lastLine` to the total line count, store `ss` in the
sessions map, stamp `lastSyncTime` and persist.  The resulting live state is
the fold of the executed steps. -/
def processSource (cfg : Config) (env : Env) (beh : UploadCall → Nat → AttemptOutcome Unit)
    (st : SyncState) (source : Source) : SrcOut :=
  let ssOpt := lookupSess st.sessions source.key
  let present := ssOpt.isSome
  let ss := ssOpt.getD ⟨0, 0⟩
  let rm := readMessages source.lines ss.lastLine
  if rm.1.length < cfg.minNewMessages then ⟨st, [], [], false⟩
  else
    let b := batchLoop cfg env beh source present (chunkList (cfg.batchSizePairs * 2) rm.1) ss
    let steps :=
      if b.aborted then b.steps
      else b.steps ++ [.setLastLine source.key present rm.2,
                       .storeSession source.key { b.ss with lastLine := rm.2 },
                       .setLastSyncTime env.now, .persist]
    ⟨steps.foldl applyMut st, steps, b.uploads, b.aborted⟩

/-- Result of one pass over all sources. -/
structure PassResult where
  state : SyncState
  steps : List MutStep
  uploads : List UploadRec
  aborted : Bool

/-- Embeds sm-daemon.js lines 247-307, `syncOnce`: process the sources in order; a
`return` from a failed batch (line 298) ends the pass, leaving all later
sources untouched. -/
def syncOnce (cfg : Config) (env : Env) (beh : UploadCall → Nat → AttemptOutcome Unit) :
    List Source → SyncState → PassResult
  | [], st => ⟨st, [], [], false⟩
  | s :: rest, st =>
    let p := processSource cfg env beh st s
    if p.aborted then ⟨p.state, p.steps, p.uploads, true⟩
    else
      let r := syncOnce cfg env beh rest p.state
      ⟨r.state, p.steps ++ r.steps, p.uploads ++ r.uploads, r.aborted⟩

/-! ## Control script (sm-control.sh) -/

/-- The environment the control script observes: the PID marker file content
(`none` when absent), whether `kill -0 pid` succeeds, and the content of
`/proc/pid/cmdline` after `tr` (empty when unreadable). -/
structure CtrlEnv where
  pidFile : Option String
  alive : String → Bool
  cmdline : String → String

/-- The daemon script name tested against the candidate process command line. -/
def daemonScriptName : String := "sm-daemon.js"

/-- Embeds sm-control.sh lines 18-40, `is_daemon_running`: a PID is accepted only if
it is non-empty, the marker file exists, the process is alive, and its command
line contains `sm-daemon.js`. -/
def is_daemon_running (env : CtrlEnv) (pid : String) : Bool :=
  if pid = "" then false
  else
    match env.pidFile with
    | none => false
    | some _ =>
      if env.alive pid then containsSub daemonScriptName.data (env.cmdline pid).data
      else false

/-- Embeds sm-control.sh lines 57-69, `get_valid_pid`: read the marker file; if the
recorded PID is not a running daemon, remove the stale marker
(`cleanup_stale_pid`) and report no valid PID. -/
def get_valid_pid (env : CtrlEnv) : Option String × CtrlEnv :=
  match env.pidFile with
  | none => (none, env)
  | some content =>
    if is_daemon_running env content then (some content, env)
    else (none, { env with pidFile := none })

/-- Embeds sm-control.sh lines 165-175, the `check` command: exit 0 when a valid PID
exists, 1 otherwise. -/
def checkCmd (env : CtrlEnv) : Nat :=
  if (get_valid_pid env).1.isSome then 0 else 1

/-- Result of the `start` command up to the point of launching: whether an
existing daemon was found, the environment right before the launch (stale
marker already cleaned), and whether a new daemon is launched. -/
structure StartResult where
  alreadyRunning : Bool
  envBeforeLaunch : CtrlEnv
  launched : Bool

/-- Embeds sm-control.sh lines 76-91, the `start` command: consult `get_valid_pid`
(which removes a stale marker); if a valid PID exists report already-running,
otherwise launch the daemon. -/
def startCmd (env : CtrlEnv) : StartResult :=
  let r := get_valid_pid env
  match r.1 with
  | some _ => ⟨true, r.2, false⟩
  | none => ⟨false, r.2, true⟩

/-- A step emitted by the batch loop: a `batchCount` update for the source's
key, a `totalSynced` increment, or a persist. -/
def BatchStepLike (key : String) (present : Bool) (step : MutStep) : Prop :=
  (∃ i, step = .setBatchCount key present i) ∨
  (∃ n, step = .incTotalSynced n) ∨ step = .persist

/-- Abbreviation for the batch loop run that `processSource` performs on a
source: the `present` flag, chunk list and initial `ss` spelled out as
`processSource` computes them. -/
def srcBatch (cfg : Config) (env : Env) (beh : UploadCall → Nat → AttemptOutcome Unit)
    (st : SyncState) (source : Source) : BatchOut :=
  batchLoop cfg env beh source (lookupSess st.sessions source.key).isSome
    (chunkList (cfg.batchSizePairs * 2)
      (readMessages source.lines
        ((lookupSess st.sessions source.key).getD ⟨0, 0⟩).lastLine).1)
    ((lookupSess st.sessions source.key).getD ⟨0, 0⟩)

/-! ## Concrete scenarios used by the theorems below -/

/-- A typical session line: a user message with plain string content. -/
def msgLine : Line := .message ("user") (.str ("hello")) none none

/-- A deterministic environment: fixed clock, zero jitter. -/
def demoEnv : Env :=
  ⟨fun _ => "1970-01-01T00:00:00.000Z", "1970-01-01T00:00:00.000Z", 0, fun _ => 0⟩

/-- A behaviour whose uploads always succeed. -/
def okBeh : UploadCall → Nat → AttemptOutcome Unit := fun _ _ => .ok ()

/-- The default (empty) daemon state. -/
def emptyState : SyncState := ⟨[], 0, 0⟩

/-- Configuration with batch size 4 records (`BATCH_SIZE = 2` pairs),
minimum-new-records threshold 5, 3 retry attempts, base delay 1000 ms. -/
def demoCfg : Config := ⟨"tag", 2, 5, 3, 1000⟩

/-- A source with exactly 7 qualifying records. -/
def src7 : Source := ⟨"s", "sid", List.replicate 7 msgLine⟩

/-- A source with exactly 8 qualifying records (two 4-record batches). -/
def src8 : Source := ⟨"s", "sid", List.replicate 8 msgLine⟩

/-- A retriable server error. -/
def err500 : JsError := ⟨"Error", some 500, "Internal Server Error"⟩

/-- A 404 client error. -/
def err404 : JsError := ⟨"Error", some 404, "Not Found"⟩

/-- A 429 rate-limit error. -/
def err429 : JsError := ⟨"Error", some 429, "Too Many Requests"⟩

/-- An operation that fails with a 404 on every attempt. -/
def op404 : Nat → AttemptOutcome Unit := fun _ => .fail err404

/-- A zero jitter source. -/
def zeroJit : Nat → ℚ := fun _ => 0

/-- A behaviour where every upload of source `aid` fails (every attempt is a
500), while other sources' uploads succeed. -/
def behFailA : UploadCall → Nat → AttemptOutcome Unit := fun call _ =>
  if call.customId = "session-aid-batch-1" then .fail err500 else .ok ()

/-- Source `a`, whose uploads fail under `behFailA`. -/
def srcA : Source := ⟨"a", "aid", List.replicate 5 msgLine⟩

/-- Source `b`, listed after `srcA`, whose uploads would succeed. -/
def srcB : Source := ⟨"b", "bid", List.replicate 5 msgLine⟩

/-- A behaviour failing exactly the upload with batch index 2 of source
`sid` (every attempt a 500), succeeding otherwise. -/
def behB2 : UploadCall → Nat → AttemptOutcome Unit := fun call _ =>
  if call.customId = "session-sid-batch-2" then .fail err500 else .ok ()

/-- A behaviour failing exactly the upload with batch index 7 of source
`sid` (every attempt a 500), succeeding otherwise. -/
def behB7 : UploadCall → Nat → AttemptOutcome Unit := fun call _ =>
  if call.customId = "session-sid-batch-7" then .fail err500 else .ok ()

/-- A state in which source `s` is already present with cursor 0 and batch
count 5. -/
def statePresent : SyncState := ⟨[("s", ⟨0, 5⟩)], 0, 0⟩

/-- A control-script environment whose marker file names a live process that
is not the daemon. -/
def envStale : CtrlEnv := ⟨some ("123"), fun _ => true, fun _ => "bash /usr/bin/sleep 600"⟩

/-- The Scrubber input of the specification's test example. -/
def scrubExampleInput : String := "key=sm_AbC123 authorization: Bearer xyz987"

/-- What the embedded scrubber actually produces on `scrubExampleInput`. -/
def scrubExampleOutput : String := "key=[REDACTED_API_KEY] authorization=[REDACTED] xyz987"

/-- The string payload of a scrubbed value (empty for non-strings). -/
def scrubbedText (v : JsValue) : String :=
  match v with
  | .str s => s
  | _ => ""

/-! ## Helper lemmas -/

/-- The live state after a fold of world steps is the fold of the state
mutations: `persist` steps leave the live state unchanged. -/
theorem live_of_applyStep_fold : ∀ (steps : List MutStep) (w : World),
    (steps.foldl applyStep w).live = steps.foldl applyMut w.live := by
  intro steps
  induction steps with
  | nil => intro w; rfl
  | cons s rest ih =>
    intro w
    rw [List.foldl_cons, List.foldl_cons, ih]
    cases s <;> rfl

/-- Looking up after a keyed update: the updated key sees the image, other
keys are untouched. -/
theorem lookupSess_mapSess : ∀ (m : List (String × SessState)) (k j : String)
    (f : SessState → SessState),
    lookupSess (mapSess m k f) j =
      if j = k then Option.map f (lookupSess m j) else lookupSess m j := by
  intro m k j f
  induction m with
  | nil => by_cases hj : j = k <;> simp [mapSess, lookupSess, hj]
  | cons p rest ih =>
    obtain ⟨k', v⟩ := p
    simp only [mapSess, lookupSess]
    by_cases hj2 : k' = j
    · subst hj2
      by_cases hk : k' = k
      · subst hk
        simp
      · simp [hk]
    · simp [hj2, ih]

/-- Every step emitted by the batch loop is `BatchStepLike`. -/
theorem batchLoop_steps_shape (cfg : Config) (env : Env)
    (beh : UploadCall → Nat → AttemptOutcome Unit) (source : Source) (present : Bool) :
    ∀ (chunks : List (List Msg)) (ss : SessState),
    ∀ step ∈ (batchLoop cfg env beh source present chunks ss).steps,
      BatchStepLike source.key present step := by
  intro chunks
  induction chunks with
  | nil => intro ss step h; simp [batchLoop] at h
  | cons batch rest ih =>
    intro ss step h
    rw [batchLoop] at h
    by_cases hlen : batch.length < 2
    · rw [if_pos hlen] at h
      exact ih ss step h
    · rw [if_neg hlen] at h
      simp only [] at h
      split at h
      · simp only [List.mem_cons] at h
        rcases h with h | h | h
        · exact Or.inl ⟨ss.batchCount + 1, h⟩
        · exact Or.inr (Or.inl ⟨batch.length, h⟩)
        · exact ih _ step h
      · simp only [List.mem_cons, List.not_mem_nil, or_false] at h
        exact Or.inr (Or.inr h)

/-- Folding `BatchStepLike` steps never changes the `lastLine` recorded for
any key in the sessions map. -/
theorem foldl_batchSteps_lastLine (key : String) (present : Bool) :
    ∀ (steps : List MutStep) (st : SyncState) (j : String),
    (∀ step ∈ steps, BatchStepLike key present step) →
    (lookupSess (steps.foldl applyMut st).sessions j).map (fun ss => ss.lastLine) =
      (lookupSess st.sessions j).map (fun ss => ss.lastLine) := by
  intro steps
  induction steps with
  | nil => intro st j _; rfl
  | cons s rest ih =>
    intro st j hshape
    rw [List.foldl_cons, ih _ j (fun step hm => hshape step (List.mem_cons_of_mem s hm))]
    rcases hshape s (List.mem_cons_self _ _) with ⟨i, rfl⟩ | ⟨n, rfl⟩ | rfl
    · cases present with
      | false => rfl
      | true =>
        show (lookupSess (mapSess st.sessions key _) j).map _ = _
        rw [lookupSess_mapSess]
        by_cases hj : j = key
        · rw [if_pos hj]
          cases lookupSess st.sessions j <;> rfl
        · rw [if_neg hj]
    · rfl
    · rfl

/-- When `processSource` aborts the pass, its outputs are exactly those of
the failing batch loop run: the emitted steps (ending in the failure-time
persist), the uploads attempted, and the state obtained by folding those
steps; in particular the final `ss.lastLine` / `storeSession` /
`lastSyncTime` statements never ran. -/
theorem processSource_abort_shape (cfg : Config) (env : Env)
    (beh : UploadCall → Nat → AttemptOutcome Unit) (st : SyncState) (source : Source)
    (h : (processSource cfg env beh st source).aborted = true) :
    processSource cfg env beh st source =
      ⟨(srcBatch cfg env beh st source).steps.foldl applyMut st,
       (srcBatch cfg env beh st source).steps,
       (srcBatch cfg env beh st source).uploads, true⟩ ∧
    (srcBatch cfg env beh st source).aborted = true := by
  by_cases hskip :
      (readMessages source.lines
        ((lookupSess st.sessions source.key).getD ⟨0, 0⟩).lastLine).1.length <
        cfg.minNewMessages
  · exact absurd h (by simp [processSource, hskip])
  · have hps : processSource cfg env beh st source =
        (let b := srcBatch cfg env beh st source
         let steps :=
           if b.aborted then b.steps
           else b.steps ++ [.setLastLine source.key (lookupSess st.sessions source.key).isSome
                              (readMessages source.lines
                                ((lookupSess st.sessions source.key).getD ⟨0, 0⟩).lastLine).2,
                            .storeSession source.key
                              { b.ss with
                                lastLine := (readMessages source.lines
                                  ((lookupSess st.sessions source.key).getD ⟨0, 0⟩).lastLine).2 },
                            .setLastSyncTime env.now, .persist]
         ⟨steps.foldl applyMut st, steps, b.uploads, b.aborted⟩) := by
      simp only [processSource, srcBatch, if_neg hskip]
    by_cases hab : (srcBatch cfg env beh st source).aborted
    · refine ⟨?_, hab⟩
      rw [hps]
      simp only [hab, if_true]
    · rw [hps] at h
      simp only [hab, if_false] at h
      exact absurd h (by simp [hab])

/-- One-step unfolding of `syncOnce` on a non-empty source list, by cases on
whether the head source aborts the pass. -/
theorem syncOnce_cons (cfg : Config) (env : Env)
    (beh : UploadCall → Nat → AttemptOutcome Unit) (s : Source) (rest : List Source)
    (st : SyncState) :
    syncOnce cfg env beh (s :: rest) st =
      if (processSource cfg env beh st s).aborted then
        ⟨(processSource cfg env beh st s).state, (processSource cfg env beh st s).steps,
         (processSource cfg env beh st s).uploads, true⟩
      else
        ⟨(syncOnce cfg env beh rest (processSource cfg env beh st s).state).state,
         (processSource cfg env beh st s).steps ++
           (syncOnce cfg env beh rest (processSource cfg env beh st s).state).steps,
         (processSource cfg env beh st s).uploads ++
           (syncOnce cfg env beh rest (processSource cfg env beh st s).state).uploads,
         (syncOnce cfg env beh rest (processSource cfg env beh st s).state).aborted⟩ := by
  by_cases hab : (processSource cfg env beh st s).aborted
  · simp [syncOnce, hab]
  · simp [syncOnce, hab]

/-- A pass over `xs ++ ys` runs `xs` first and, when that prefix did not
abort, continues with `ys` from the reached state, concatenating steps and
uploads. -/
theorem syncOnce_append (cfg : Config) (env : Env)
    (beh : UploadCall → Nat → AttemptOutcome Unit) :
    ∀ (xs ys : List Source) (st : SyncState),
    syncOnce cfg env beh (xs ++ ys) st =
      if (syncOnce cfg env beh xs st).aborted then syncOnce cfg env beh xs st
      else
        ⟨(syncOnce cfg env beh ys (syncOnce cfg env beh xs st).state).state,
         (syncOnce cfg env beh xs st).steps ++
           (syncOnce cfg env beh ys (syncOnce cfg env beh xs st).state).steps,
         (syncOnce cfg env beh xs st).uploads ++
           (syncOnce cfg env beh ys (syncOnce cfg env beh xs st).state).uploads,
         (syncOnce cfg env beh ys (syncOnce cfg env beh xs st).state).aborted⟩ := by
  intro xs
  induction xs with
  | nil =>
    intro ys st
    simp only [List.nil_append, syncOnce, Bool.false_eq_true, if_false, List.append_nil]
  | cons s rest ih =>
    intro ys st
    rw [List.cons_append, syncOnce_cons, syncOnce_cons cfg env beh s rest st, ih]
    by_cases hab : (processSource cfg env beh st s).aborted
    · simp [hab]
    · by_cases hab2 :
        (syncOnce cfg env beh rest (processSource cfg env beh st s).state).aborted
      · simp [hab, hab2]
      · simp [hab, hab2, List.append_assoc]

/-- The retry loop reports at least as many attempts as were already
executed before it started. -/
theorem apiCallLoop_attempts_ge {α : Type} (op : Nat → AttemptOutcome α) (b : ℚ)
    (j : Nat → ℚ) (N : Nat) :
    ∀ (fuel attempt : Nat) (last : Option JsError) (ds : List ℚ),
    attempt ≤ (apiCallLoop op b j N fuel attempt last ds).attemptsMade := by
  intro fuel
  induction fuel with
  | zero => intro attempt last ds; exact le_refl _
  | succ f ih =>
    intro attempt last ds
    rw [apiCallLoop]
    split
    · exact Nat.le_succ _
    · dsimp only
      split
      · exact Nat.le_succ _
      · split
        · exact Nat.le_succ _
        · split
          · exact le_trans (Nat.le_succ _) (ih (attempt + 1) _ _)
          · exact le_trans (Nat.le_succ _) (ih (attempt + 1) _ _)

/-- With fuel remaining, the retry loop executes at least one more attempt. -/
theorem apiCallLoop_attempts_ge_succ {α : Type} (op : Nat → AttemptOutcome α) (b : ℚ)
    (j : Nat → ℚ) (N : Nat) (f attempt : Nat) (last : Option JsError) (ds : List ℚ) :
    attempt + 1 ≤ (apiCallLoop op b j N (f + 1) attempt last ds).attemptsMade := by
  rw [apiCallLoop]
  split
  · exact le_refl _
  · dsimp only
    split
    · exact le_refl _
    · split
      · exact le_refl _
      · split
        · exact apiCallLoop_attempts_ge op b j N f (attempt + 1) _ _
        · exact apiCallLoop_attempts_ge op b j N f (attempt + 1) _ _

/-- An attempt failing with a client error (4xx other than 429) is re-raised
at once: one more attempt executed, no sleep recorded. -/
theorem apiCallLoop_client_error {α : Type} (op : Nat → AttemptOutcome α) (b : ℚ)
    (j : Nat → ℚ) (N f attempt : Nat) (last : Option JsError) (ds : List ℚ)
    (e : JsError) (hop : op attempt = .fail e) (hce : isClientError e = true) :
    apiCallLoop op b j N (f + 1) attempt last ds = ⟨.error (some e), attempt + 1, ds.reverse⟩ := by
  rw [apiCallLoop, hop]
  dsimp only [attemptError, Option.getD]
  rw [if_pos hce]

/-- When every attempt fails with a retriable error, the loop runs out of
attempts and re-raises the error of the last attempt. -/
theorem apiCallLoop_exhaust {α : Type} (op : Nat → AttemptOutcome α) (b : ℚ)
    (j : Nat → ℚ) (N : Nat) (es : Nat → JsError)
    (hop : ∀ a, a < N → op a = .fail (es a))
    (hnc : ∀ a, a < N → isClientError (es a) = false)
    (hna : ∀ a, a < N → (es a).name ≠ abortName) :
    ∀ (fuel attempt : Nat) (last : Option JsError) (ds : List ℚ),
    attempt + fuel = N → 1 ≤ fuel →
    (apiCallLoop op b j N fuel attempt last ds).result = .error (some (es (N - 1))) := by
  intro fuel
  induction fuel with
  | zero => intro attempt last ds _ h1; exact absurd h1 (by omega)
  | succ f ih =>
    intro attempt last ds hsum _
    have hlt : attempt < N := by omega
    rw [apiCallLoop, hop attempt hlt]
    dsimp only [attemptError, Option.getD]
    rw [if_neg (by rw [hnc attempt hlt]; exact Bool.false_ne_true)]
    rw [if_neg (hna attempt hlt)]
    by_cases hf : 1 ≤ f
    · rw [if_pos (show attempt < N - 1 by omega)]
      exact ih (attempt + 1) (some (es attempt)) _ (by omega) hf
    · have hf0 : f = 0 := by omega
      subst hf0
      rw [if_neg (show ¬ attempt < N - 1 by omega)]
      have h2 : attempt = N - 1 := by omega
      rw [h2]
      rfl

/-- Every upload attempted by the batch loop uses a batch index strictly
greater than the `batchCount` the loop started from. -/
theorem batchLoop_upload_index_gt (cfg : Config) (env : Env)
    (beh : UploadCall → Nat → AttemptOutcome Unit) (source : Source) (present : Bool) :
    ∀ (chunks : List (List Msg)) (ss : SessState),
    ∀ u ∈ (batchLoop cfg env beh source present chunks ss).uploads,
      ss.batchCount < u.batchIndex := by
  intro chunks
  induction chunks with
  | nil => intro ss u hu; simp [batchLoop] at hu
  | cons batch rest ih =>
    intro ss u hu
    rw [batchLoop] at hu
    by_cases hlen : batch.length < 2
    · rw [if_pos hlen] at hu
      exact ih ss u hu
    · rw [if_neg hlen] at hu
      simp only [] at hu
      split at hu
      · simp only [List.mem_cons] at hu
        rcases hu with hu | hu
        · subst hu; exact Nat.lt_succ_self _
        · exact Nat.lt_of_succ_lt (ih _ u hu)
      · simp only [List.mem_cons, List.not_mem_nil, or_false] at hu
        subst hu; exact Nat.lt_succ_self _

/-- Uploads attempted by `processSource` (when any) all use batch indexes
strictly greater than the `batchCount` stored for the source (0 when the
source has no entry yet). -/
theorem processSource_upload_index_gt (cfg : Config) (env : Env)
    (beh : UploadCall → Nat → AttemptOutcome Unit) (st : SyncState) (source : Source) :
    ∀ u ∈ (processSource cfg env beh st source).uploads,
      ((lookupSess st.sessions source.key).getD ⟨0, 0⟩).batchCount < u.batchIndex := by
  intro u hu
  by_cases hskip :
      (readMessages source.lines
        ((lookupSess st.sessions source.key).getD ⟨0, 0⟩).lastLine).1.length <
        cfg.minNewMessages
  · simp [processSource, hskip] at hu
  · have huq : (processSource cfg env beh st source).uploads =
        (srcBatch cfg env beh st source).uploads := by
      simp only [processSource, srcBatch, if_neg hskip]
    rw [huq] at hu
    exact batchLoop_upload_index_gt cfg env beh source _ _ _ u hu

/-- The batch-loop invariant for a source already present in the sessions
map, where the local `ss` aliases the stored entry: folding the emitted
steps keeps the map entry equal to the local `ss`; the loop never touches
`lastLine`; the final `batchCount` advances by exactly the number of
succeeded uploads; every attempted upload's index exceeds the starting
`batchCount`; and every succeeded upload's index is at most the final
`batchCount`. -/
theorem batchLoop_present_invariant (cfg : Config) (env : Env)
    (beh : UploadCall → Nat → AttemptOutcome Unit) (source : Source) :
    ∀ (chunks : List (List Msg)) (ss : SessState) (st : SyncState),
    lookupSess st.sessions source.key = some ss →
    lookupSess (SyncState.sessions
        ((batchLoop cfg env beh source true chunks ss).steps.foldl applyMut st))
        source.key = some (batchLoop cfg env beh source true chunks ss).ss ∧
    (batchLoop cfg env beh source true chunks ss).ss.lastLine = ss.lastLine ∧
    (batchLoop cfg env beh source true chunks ss).ss.batchCount =
      ss.batchCount +
        ((batchLoop cfg env beh source true chunks ss).uploads.filter
          (fun u => u.ok)).length ∧
    (∀ u ∈ (batchLoop cfg env beh source true chunks ss).uploads, u.ok = true →
      u.batchIndex ≤ (batchLoop cfg env beh source true chunks ss).ss.batchCount) := by
  intro chunks
  induction chunks with
  | nil =>
    intro ss st h
    refine ⟨h, rfl, by simp [batchLoop], ?_⟩
    intro u hu
    simp [batchLoop] at hu
  | cons batch rest ih =>
    intro ss st h
    rw [batchLoop]
    by_cases hlen : batch.length < 2
    · rw [if_pos hlen]
      exact ih ss st h
    · rw [if_neg hlen]
      dsimp only
      rcases hres : (apiCallWithRetry
          (beh (buildCall cfg env source (ss.batchCount + 1) batch))
          cfg.baseDelayMs env.jit cfg.retryAttempts).result with e | v
      · refine ⟨?_, ?_, ?_, ?_⟩
        · simp only [hres, List.foldl_cons, List.foldl_nil]
          exact h
        · simp [hres]
        · simp [hres]
        · simp only [hres]
          intro u hu hok
          simp only [List.mem_cons, List.not_mem_nil, or_false] at hu
          subst hu
          simp at hok
      · simp only [hres]
        have h2 : lookupSess
            (SyncState.sessions
              (applyMut (applyMut st
                (.setBatchCount source.key true (ss.batchCount + 1)))
                (.incTotalSynced batch.length)))
            source.key = some { ss with batchCount := ss.batchCount + 1 } := by
          show lookupSess (mapSess st.sessions source.key
            (fun s => { s with batchCount := ss.batchCount + 1 })) source.key = _
          rw [lookupSess_mapSess, if_pos rfl, h]
          rfl
        have IH := ih { ss with batchCount := ss.batchCount + 1 } _ h2
        refine ⟨IH.1, IH.2.1, ?_, ?_⟩
        · have hbc := IH.2.2.1
          dsimp only at hbc ⊢
          simp only [List.filter_cons_of_pos, List.length_cons]
          omega
        · intro u hu hok
          simp only [List.mem_cons] at hu
          rcases hu with hu | hu
          · subst hu
            have hbc := IH.2.2.1
            dsimp only at hbc ⊢
            omega
          · exact IH.2.2.2 u hu hok

/-! ## Claim theorems -/

/-- Claim C1: the specification says a failure caused by the executor's own
timeout-triggered cancellation is retried (only caller-initiated cancellation
is re-raised, distinguished by an origin tag).  The code has no origin tag:
it checks `err.name === 'AbortError'`, which is also the name of the error its
own timeout produces.  This theorem evaluates the code at the claim's failing
input: an operation whose first attempt expires the per-attempt timeout, with
3 attempts configured, is re-raised as an AbortError after exactly one
attempt, with no sleep — no further attempt is made. -/
theorem C1_timeout_abort_not_retried : ∀ (baseDelayMs : ℚ) (jit : Nat → ℚ),
    apiCallWithRetry (fun _ => (.timeout : AttemptOutcome Unit)) baseDelayMs jit 3 =
      ⟨.error (some abortError), 1, []⟩ := by
  intro baseDelayMs jit
  rfl

/-- Claim C3: the specification says scrubbing
`"key=sm_AbC123 authorization: Bearer xyz987"` yields output containing
neither `sm_AbC123` nor `xyz987`, and that non-string input passes through
unchanged.  Evaluating the code: the `authorization` pattern (applied third)
consumes the word `Bearer`, so the `bearer` pattern (applied fourth) no longer
matches and the token `xyz987` survives in the output; `sm_AbC123` is redacted
and non-string input does pass through unchanged. -/
theorem C3_scrubber_leaks_bearer_token :
    scrubSensitiveData (.str scrubExampleInput) = .str scrubExampleOutput ∧
    containsSub ("sm_AbC123").data
      (scrubbedText (scrubSensitiveData (.str scrubExampleInput))).data = false ∧
    containsSub ("xyz987").data
      (scrubbedText (scrubSensitiveData (.str scrubExampleInput))).data = true ∧
    (∀ q : ℚ, scrubSensitiveData (.num q) = .num q) ∧
    (∀ b : Bool, scrubSensitiveData (.boolean b) = .boolean b) ∧
    scrubSensitiveData .null = .null ∧
    scrubSensitiveData .undefined = .undefined := by
  refine ⟨by decide, by decide, by decide, fun q => rfl, fun b => rfl, rfl, rfl⟩

/-- Claim C5, counterexample: the claim says that whenever `SM_CONTAINER_TAG`
is unset startup terminates the process and `getContainerTag` never returns a
usable tag.  In the code an unset tag is not fatal: `getContainerTag` returns
the fallback tag `"default"` (with a warning), and the daemon proceeds. -/
theorem C5_unset_tag_returns_default :
    getContainerTag none = .ok ("default") := rfl

/-- Claim C5, amended: when `SM_CONTAINER_TAG` is set (non-empty) and is a
known placeholder value after trimming and lowercasing, or is under 2
characters after trimming, `getContainerTag` exits the process with code 1;
an unset (or empty) tag instead falls back to `"default"`. -/
theorem C5_placeholder_or_short_tag_exits : ∀ tag : String, tag ≠ "" →
    (lowerStr (jsTrim tag) ∈ invalidTags ∨ (jsTrim tag).length < 2) →
    getContainerTag (some tag) = .error 1 := by
  intro tag htag h
  have hred : getContainerTag (some tag) =
      (if tag = "" then Except.ok ("default")
       else if lowerStr (jsTrim tag) ∈ invalidTags then Except.error 1
       else if (jsTrim tag).length < 2 then Except.error 1
       else Except.ok (jsTrim tag)) := rfl
  rw [hred, if_neg htag]
  rcases h with h | h
  · simp only [if_pos h]
  · by_cases hm : lowerStr (jsTrim tag) ∈ invalidTags
    · simp only [if_pos hm]
    · simp only [if_neg hm, if_pos h]

/-- Witness for C5: the placeholder tag `"test"` makes startup exit 1. -/
theorem C5_witness :
    ("test" : String) ≠ "" ∧ lowerStr (jsTrim ("test")) ∈ invalidTags ∧
    getContainerTag (some ("test")) = .error 1 :=
  ⟨by decide, by decide,
   C5_placeholder_or_short_tag_exits ("test") (by decide) (Or.inl (by decide))⟩

/-- Claim C7: the backoff delay for zero-based attempt `a` is
`min(base · 2^a + jitter, 30000)` with jitter in `[0, 1000)`; with the default
base delay 1000 ms every delay is at most 30 s, and for consecutive attempts
whose delays are both below the cap the later delay is strictly greater. -/
theorem C7_backoff_monotone_capped : ∀ (a : Nat) (j j' : ℚ),
    0 ≤ j → j < 1000 → 0 ≤ j' → j' < 1000 →
    getRetryDelay 1000 a j ≤ 30000 ∧
    getRetryDelay 1000 (a + 1) j' ≤ 30000 ∧
    (getRetryDelay 1000 a j < 30000 → getRetryDelay 1000 (a + 1) j' < 30000 →
      getRetryDelay 1000 a j < getRetryDelay 1000 (a + 1) j') := by
  intro a j j' hj0 hj hj0' hj'
  refine ⟨min_le_right _ _, min_le_right _ _, fun hlt hlt' => ?_⟩
  have hx : (1000 : ℚ) * 2 ^ a + j < 30000 := by
    by_contra hge
    exact absurd (min_eq_right (le_of_not_lt hge) ▸ hlt) (lt_irrefl _)
  have hx' : (1000 : ℚ) * 2 ^ (a + 1) + j' < 30000 := by
    by_contra hge
    exact absurd (min_eq_right (le_of_not_lt hge) ▸ hlt') (lt_irrefl _)
  have h2 : (1 : ℚ) ≤ 2 ^ a := by
    calc (1 : ℚ) = 1 ^ a := (one_pow a).symm
    _ ≤ 2 ^ a := pow_le_pow_left₀ (by norm_num) (by norm_num) a
  have hstep : (1000 : ℚ) * 2 ^ a + j < 1000 * 2 ^ (a + 1) + j' := by
    have hpow : (1000 : ℚ) * 2 ^ (a + 1) = 1000 * 2 ^ a + 1000 * 2 ^ a := by
      rw [pow_succ]; ring
    nlinarith
  rw [getRetryDelay, getRetryDelay, min_eq_left (le_of_lt hx), min_eq_left (le_of_lt hx')]
  exact hstep

/-- Witness for C7: with zero jitter, the delay of attempt 0 is capped and
strictly below the delay of attempt 1. -/
theorem C7_witness :
    getRetryDelay 1000 0 0 ≤ 30000 ∧ getRetryDelay 1000 0 0 < getRetryDelay 1000 1 0 := by
  have h := C7_backoff_monotone_capped 0 0 0 (le_refl 0) (by norm_num) (le_refl 0) (by norm_num)
  refine ⟨h.1, h.2.2 ?_ ?_⟩
  · rw [getRetryDelay]; norm_num
  · rw [getRetryDelay]; norm_num

/-- Claim C9: a liveness marker naming a live process whose command line does
not contain the daemon script name is stale: `check` exits 1 (not running),
and `start` removes the stale marker file before launching a new daemon. -/
theorem C9_stale_marker_cleaned : ∀ (env : CtrlEnv) (pid : String),
    env.pidFile = some pid →
    env.alive pid = true →
    containsSub daemonScriptName.data (env.cmdline pid).data = false →
    checkCmd env = 1 ∧ (startCmd env).alreadyRunning = false ∧
    (startCmd env).launched = true ∧ (startCmd env).envBeforeLaunch.pidFile = none := by
  intro env pid hfile halive hcmd
  have hrun : is_daemon_running env pid = false := by
    unfold is_daemon_running
    rcases eq_or_ne pid ("") with hp | hp
    · simp [hp]
    · rw [if_neg hp, hfile, if_pos halive, hcmd]
  have hgv : get_valid_pid env = (none, { env with pidFile := none }) := by
    unfold get_valid_pid
    rw [hfile]
    simp [hrun]
  refine ⟨?_, ?_, ?_, ?_⟩ <;> simp [checkCmd, startCmd, hgv]

/-- Witness for C9: a concrete marker (`"123"`, alive, running an unrelated
command) is treated as stale by `check` and removed by `start`. -/
theorem C9_witness :
    envStale.pidFile = some ("123") ∧ envStale.alive ("123") = true ∧
    containsSub daemonScriptName.data (envStale.cmdline ("123")).data = false ∧
    (checkCmd envStale = 1 ∧ (startCmd envStale).alreadyRunning = false ∧
      (startCmd envStale).launched = true ∧
      (startCmd envStale).envBeforeLaunch.pidFile = none) :=
  ⟨rfl, rfl, by decide, C9_stale_marker_cleaned envStale ("123") rfl rfl (by decide)⟩

/-- Claim C4, counterexample: with 7 new qualifying records, threshold 5 and
batch size 4, the claim says one pass uploads exactly one batch (of 4).  The
code uploads two batches in the same pass: the slicing loop also submits the
3-record remainder, since only batches of fewer than 2 records are dropped. -/
theorem C4_pass_uploads_two_batches :
    (syncOnce demoCfg demoEnv okBeh [src7] emptyState).uploads.length = 2 ∧
    ((syncOnce demoCfg demoEnv okBeh [src7] emptyState).uploads.map
      (fun u => u.msgCount)) = [4, 3] := by
  exact ⟨by decide, by decide⟩

/-- Claim C4, amended: with 7 new qualifying records, threshold 5 and batch
size 4, one pass uploads two batches — 4 records then the 3-record remainder
(3 ≥ 2, so it is not dropped) — advancing the cursor to line 7; a subsequent
pass over the unchanged Source reads 0 new records, which is below the
threshold, so the Source is skipped (no uploads, state unchanged) until more
records accumulate. -/
theorem C4_amended_two_batches_then_skip :
    ((syncOnce demoCfg demoEnv okBeh [src7] emptyState).uploads.map
      (fun u => (u.batchIndex, u.msgCount, u.ok))) = [(1, 4, true), (2, 3, true)] ∧
    (syncOnce demoCfg demoEnv okBeh [src7] emptyState).aborted = false ∧
    lookupSess (syncOnce demoCfg demoEnv okBeh [src7] emptyState).state.sessions ("s") =
      some ⟨7, 2⟩ ∧
    (readMessages src7.lines 7).1.length = 0 ∧
    (syncOnce demoCfg demoEnv okBeh [src7]
      (syncOnce demoCfg demoEnv okBeh [src7] emptyState).state).uploads = [] ∧
    (syncOnce demoCfg demoEnv okBeh [src7]
      (syncOnce demoCfg demoEnv okBeh [src7] emptyState).state).state =
      (syncOnce demoCfg demoEnv okBeh [src7] emptyState).state := by
  refine ⟨by decide, by decide, by decide, by decide, by decide, by decide⟩

/-- Claim C6: the Resilient Call Executor (1) never retries a failure with a
4xx status other than 429 — for any such failure on the first attempt
(404 in particular) it re-raises after exactly one attempt with no sleep;
(2) does make a further attempt after a 429 failure; (3) for an operation
failing 429 twice and then succeeding, with 3 attempts configured, returns
the success result after exactly 2 retries with the two computed backoff
delays; and (4) when all attempts fail retriably, re-raises the failure of
the last attempt. -/
theorem C6_client_error_retry_policy :
    (∀ (α : Type) (op : Nat → AttemptOutcome α) (b : ℚ) (j : Nat → ℚ) (N : Nat)
      (e : JsError) (s : Nat), 1 ≤ N → op 0 = .fail e → e.statusCode = some s →
      400 ≤ s → s < 500 → s ≠ 429 →
      apiCallWithRetry op b j N = ⟨.error (some e), 1, []⟩) ∧
    (∀ (α : Type) (op : Nat → AttemptOutcome α) (b : ℚ) (j : Nat → ℚ) (N : Nat)
      (e : JsError), 2 ≤ N → op 0 = .fail e → e.statusCode = some 429 →
      e.name ≠ abortName →
      2 ≤ (apiCallWithRetry op b j N).attemptsMade) ∧
    (∀ (α : Type) (op : Nat → AttemptOutcome α) (b : ℚ) (j : Nat → ℚ) (v : α)
      (e₁ e₂ : JsError),
      op 0 = .fail e₁ → e₁.statusCode = some 429 → e₁.name ≠ abortName →
      op 1 = .fail e₂ → e₂.statusCode = some 429 → e₂.name ≠ abortName →
      op 2 = .ok v →
      apiCallWithRetry op b j 3 =
        ⟨.ok v, 3, [getRetryDelay b 0 (j 0), getRetryDelay b 1 (j 1)]⟩) ∧
    (∀ (α : Type) (op : Nat → AttemptOutcome α) (b : ℚ) (j : Nat → ℚ) (N : Nat)
      (es : Nat → JsError), 1 ≤ N →
      (∀ a, a < N → op a = .fail (es a)) →
      (∀ a, a < N → isClientError (es a) = false) →
      (∀ a, a < N → (es a).name ≠ abortName) →
      (apiCallWithRetry op b j N).result = .error (some (es (N - 1)))) := by
  refine ⟨?_, ?_, ?_, ?_⟩
  · intro α op b j N e s hN hop hsc h400 h500 h429
    obtain ⟨m, rfl⟩ : ∃ m, N = m + 1 := ⟨N - 1, by omega⟩
    have hce : isClientError e = true := by
      simp [isClientError, hsc, h400, h500, h429]
    exact apiCallLoop_client_error op b j (m + 1) m 0 none [] e hop hce
  · intro α op b j N e hN hop hsc hname
    obtain ⟨m, rfl⟩ : ∃ m, N = m + 2 := ⟨N - 2, by omega⟩
    have hce : isClientError e = false := by simp [isClientError, hsc]
    rw [apiCallWithRetry, apiCallLoop, hop]
    dsimp only [attemptError, Option.getD]
    rw [if_neg (by rw [hce]; exact Bool.false_ne_true), if_neg hname,
      if_pos (show 0 < m + 2 - 1 by omega)]
    exact apiCallLoop_attempts_ge_succ op b j (m + 2) m 1 (some e) _
  · intro α op b j v e₁ e₂ hop0 hsc1 hname1 hop1 hsc2 hname2 hop2
    have hce1 : isClientError e₁ = false := by simp [isClientError, hsc1]
    have hce2 : isClientError e₂ = false := by simp [isClientError, hsc2]
    rw [apiCallWithRetry, apiCallLoop, hop0]
    dsimp only [attemptError, Option.getD]
    rw [if_neg (by rw [hce1]; exact Bool.false_ne_true), if_neg hname1,
      if_pos (show 0 < 3 - 1 by omega)]
    rw [apiCallLoop, hop1]
    dsimp only [attemptError, Option.getD]
    rw [if_neg (by rw [hce2]; exact Bool.false_ne_true), if_neg hname2,
      if_pos (show 1 < 3 - 1 by omega)]
    rw [apiCallLoop, hop2]
    rfl
  · intro α op b j N es hN hop hnc hna
    exact apiCallLoop_exhaust op b j N es hop hnc hna N 0 none [] (by omega) (by omega)

/-- Witness for C6: a 404 failure on the first of 3 attempts is re-raised
after exactly one attempt with no sleep. -/
theorem C6_witness :
    ((1 : Nat) ≤ 3 ∧ op404 0 = .fail err404 ∧ err404.statusCode = some 404) ∧
    apiCallWithRetry op404 1000 zeroJit 3 = ⟨.error (some err404), 1, []⟩ :=
  ⟨⟨by norm_num, rfl, rfl⟩,
   C6_client_error_retry_policy.1 Unit op404 1000 zeroJit 3 err404 404
     (by norm_num) rfl rfl (by norm_num) (by norm_num) (by norm_num)⟩

/-- Claim C2, counterexample: the claim says that after an exhausted batch
failure in one Source, every later Source is still read and processed in the
same pass.  In the code the failure handler does `return`, ending the whole
pass: here source `a` fails (all retries exhausted on a 500) and source `b` —
which has 5 qualifying records, meeting the threshold — is never processed:
no upload for `b` is attempted and the state has no entry for `b`; the state
persisted at the failure is the unchanged initial state. -/
theorem C2_later_source_not_processed :
    (syncOnce demoCfg demoEnv behFailA [srcA, srcB] emptyState).aborted = true ∧
    ((syncOnce demoCfg demoEnv behFailA [srcA, srcB] emptyState).uploads.map
      (fun u => u.sourceKey)) = ["a"] ∧
    (readMessages srcB.lines 0).1.length = 5 ∧
    lookupSess (syncOnce demoCfg demoEnv behFailA [srcA, srcB] emptyState).state.sessions
      ("b") = none ∧
    ((syncOnce demoCfg demoEnv behFailA [srcA, srcB] emptyState).steps.foldl applyStep
      ⟨emptyState, none⟩).disk = some emptyState := by
  refine ⟨by decide, by decide, by decide, by decide, by decide⟩

/-- Claim C2, amended: when a batch upload fails after all retries are
exhausted for some Source, the whole pass is aborted, not just that Source:
the pass result is literally independent of every later Source (none of them
is read or processed until the next pass), the pass reports aborted, and the
failing Source's cursor (`lastLine`) is not advanced past its unconsumed
records.  (The original claim's requirement that later Sources are still
processed in the same pass is refuted by the code, which returns from the
whole pass; the cursor part of the claim does hold.) -/
theorem C2_amended_failure_aborts_whole_pass : ∀ (cfg : Config) (env : Env)
    (beh : UploadCall → Nat → AttemptOutcome Unit) (pre : List Source) (s : Source)
    (post : List Source) (st : SyncState),
    (syncOnce cfg env beh pre st).aborted = false →
    (processSource cfg env beh (syncOnce cfg env beh pre st).state s).aborted = true →
    syncOnce cfg env beh (pre ++ s :: post) st = syncOnce cfg env beh (pre ++ [s]) st ∧
    (syncOnce cfg env beh (pre ++ s :: post) st).aborted = true ∧
    (lookupSess (syncOnce cfg env beh (pre ++ s :: post) st).state.sessions s.key).map
        (fun ss => ss.lastLine) =
      (lookupSess (syncOnce cfg env beh pre st).state.sessions s.key).map
        (fun ss => ss.lastLine) := by
  intro cfg env beh pre s post st hpre habort
  have happ : ∀ (post' : List Source),
      syncOnce cfg env beh (pre ++ s :: post') st =
        ⟨(processSource cfg env beh (syncOnce cfg env beh pre st).state s).state,
         (syncOnce cfg env beh pre st).steps ++
           (processSource cfg env beh (syncOnce cfg env beh pre st).state s).steps,
         (syncOnce cfg env beh pre st).uploads ++
           (processSource cfg env beh (syncOnce cfg env beh pre st).state s).uploads,
         true⟩ := by
    intro post'
    rw [syncOnce_append, if_neg (by rw [hpre]; exact Bool.false_ne_true),
      syncOnce_cons, if_pos habort]
  have hshape := processSource_abort_shape cfg env beh
    (syncOnce cfg env beh pre st).state s habort
  refine ⟨?_, ?_, ?_⟩
  · rw [happ post, happ []]
  · rw [happ post]
  · rw [happ post]
    show (lookupSess
        (SyncState.sessions
          (SrcOut.state (processSource cfg env beh (syncOnce cfg env beh pre st).state s)))
        s.key).map (fun ss => ss.lastLine) = _
    rw [hshape.1]
    exact foldl_batchSteps_lastLine s.key
      (lookupSess (syncOnce cfg env beh pre st).state.sessions s.key).isSome
      (srcBatch cfg env beh (syncOnce cfg env beh pre st).state s).steps
      (syncOnce cfg env beh pre st).state s.key
      (batchLoop_steps_shape cfg env beh s _ _ _)

/-- Witness for C2 (amended): with no earlier Sources, source `a` failing
exhausted and source `b` listed after it, the pass equals the pass without
`b`, is aborted, and leaves `a`'s cursor where it was. -/
theorem C2_witness :
    (syncOnce demoCfg demoEnv behFailA [] emptyState).aborted = false ∧
    (processSource demoCfg demoEnv behFailA
      (syncOnce demoCfg demoEnv behFailA [] emptyState).state srcA).aborted = true ∧
    (syncOnce demoCfg demoEnv behFailA ([] ++ srcA :: [srcB]) emptyState =
        syncOnce demoCfg demoEnv behFailA ([] ++ [srcA]) emptyState ∧
      (syncOnce demoCfg demoEnv behFailA ([] ++ srcA :: [srcB]) emptyState).aborted = true ∧
      (lookupSess (syncOnce demoCfg demoEnv behFailA ([] ++ srcA :: [srcB])
          emptyState).state.sessions srcA.key).map (fun ss => ss.lastLine) =
        (lookupSess (syncOnce demoCfg demoEnv behFailA []
          emptyState).state.sessions srcA.key).map (fun ss => ss.lastLine)) :=
  ⟨rfl, by decide,
   C2_amended_failure_aborts_whole_pass demoCfg demoEnv behFailA [] srcA [srcB]
     emptyState rfl (by decide)⟩

/-- Claim C8: a termination signal arriving after any number `k` of the
mutating statements of the in-flight pass makes the shutdown handler persist
the live in-memory state — the fold of all `k` mutations over the initial
state — regardless of what was last saved to disk (`d₀`): the handler closes
over the live state object and never reloads from storage.  Concretely, in a
pass over an 8-record source, after the first two statements of the pass
(`ss.batchCount = 1`; `state.totalSynced += 4`) nothing has been saved yet,
and the handler persists the state with that in-flight progress. -/
theorem C8_shutdown_persists_inflight_state :
    (∀ (cfg : Config) (env : Env) (beh : UploadCall → Nat → AttemptOutcome Unit)
      (sources : List Source) (st₀ : SyncState) (d₀ : Option SyncState) (k : Nat),
      (shutdown
        (((syncOnce cfg env beh sources st₀).steps.take k).foldl applyStep ⟨st₀, d₀⟩).live
        (((syncOnce cfg env beh sources st₀).steps.take k).foldl applyStep
          ⟨st₀, d₀⟩)).disk =
        some (((syncOnce cfg env beh sources st₀).steps.take k).foldl applyMut st₀)) ∧
    (((syncOnce demoCfg demoEnv okBeh [src8] emptyState).steps.take 2).foldl applyStep
      ⟨emptyState, none⟩).disk = none ∧
    (shutdown
      (((syncOnce demoCfg demoEnv okBeh [src8] emptyState).steps.take 2).foldl applyStep
        ⟨emptyState, none⟩).live
      (((syncOnce demoCfg demoEnv okBeh [src8] emptyState).steps.take 2).foldl applyStep
        ⟨emptyState, none⟩)).disk = some ⟨[], 4, 0⟩ := by
  refine ⟨?_, by decide, by decide⟩
  intro cfg env beh sources st₀ d₀ k
  show some (((syncOnce cfg env beh sources st₀).steps.take k).foldl applyStep
    ⟨st₀, d₀⟩).live = _
  rw [live_of_applyStep_fold]

/-- Claim C10, counterexample: the claim says that whenever a batch fails
after earlier batches of the same Source succeeded in the same pass, the
persisted state has `batchCount` advanced past the succeeded batches, and the
next pass uses strictly greater batch indexes (fresh `customId`s).  For a
Source that is not yet in the sessions map, the local `ss` object is only
stored into the state at source completion (line 303), which the failure
`return` skips: here batch 1 succeeds and batch 2 fails, yet the persisted
state has no entry for the Source at all, and the next pass reuses batch
index 1 — with the identical `customId` `session-sid-batch-1` that the
succeeded upload already used. -/
theorem C10_new_source_batch_index_reused :
    ((syncOnce demoCfg demoEnv behB2 [src8] emptyState).uploads.map
      (fun u => (u.batchIndex, u.ok))) = [(1, true), (2, false)] ∧
    lookupSess (syncOnce demoCfg demoEnv behB2 [src8] emptyState).state.sessions ("s") =
      none ∧
    ((syncOnce demoCfg demoEnv behB2 [src8] emptyState).steps.foldl applyStep
      ⟨emptyState, none⟩).disk = some ⟨[], 4, 0⟩ ∧
    ((syncOnce demoCfg demoEnv behB2 [src8] ⟨[], 4, 0⟩).uploads.map
      (fun u => (u.batchIndex, u.call.customId))) =
      [(1, "session-sid-batch-1"), (2, "session-sid-batch-2")] := by
  refine ⟨by decide, by decide, by decide, by decide⟩

/-- Claim C10, amended: the claimed invariant holds for a Source that already
has an entry in the sessions map (so the local `ss` aliases the stored
entry).  For such a Source, when a batch fails after earlier batches
succeeded, the resulting (and persisted) state has `batchCount` advanced by
exactly the number of succeeded uploads while `lastLine` is unchanged — so
the next pass re-reads all records after the old cursor, including those
already uploaded — and every upload of the next pass uses a batch index
strictly greater than every index of a previously *succeeded* upload, hence a
fresh `customId`.  (For a Source with no entry yet the advanced `batchCount`
is lost, because the entry is only stored at source completion; and the
failed attempt's own index is reused by the next pass, so strict freshness
holds for succeeded indexes, not every index ever attempted.) -/
theorem C10_amended_present_source_fresh_indexes :
    ∀ (cfg : Config) (env env₂ : Env) (beh beh₂ : UploadCall → Nat → AttemptOutcome Unit)
      (st : SyncState) (src : Source) (L B : Nat),
    lookupSess st.sessions src.key = some ⟨L, B⟩ →
    (processSource cfg env beh st src).aborted = true →
    lookupSess (SyncState.sessions (SrcOut.state (processSource cfg env beh st src)))
        src.key =
      some ⟨L, B + ((processSource cfg env beh st src).uploads.filter
        (fun u => u.ok)).length⟩ ∧
    (∀ u ∈ (processSource cfg env₂ beh₂
        (SrcOut.state (processSource cfg env beh st src)) src).uploads,
      ∀ v ∈ (processSource cfg env beh st src).uploads,
        v.ok = true → v.batchIndex < u.batchIndex) := by
  intro cfg env env₂ beh beh₂ st src L B h habort
  have hshape := (processSource_abort_shape cfg env beh st src habort).1
  have hsb : srcBatch cfg env beh st src =
      batchLoop cfg env beh src true
        (chunkList (cfg.batchSizePairs * 2) (readMessages src.lines L).1) ⟨L, B⟩ := by
    rw [srcBatch, h]
    rfl
  have hinv := batchLoop_present_invariant cfg env beh src
    (chunkList (cfg.batchSizePairs * 2) (readMessages src.lines L).1) ⟨L, B⟩ st h
  have h1 : (batchLoop cfg env beh src true
      (chunkList (cfg.batchSizePairs * 2) (readMessages src.lines L).1) ⟨L, B⟩).ss.lastLine
      = L := hinv.2.1
  have h2 : (batchLoop cfg env beh src true
      (chunkList (cfg.batchSizePairs * 2) (readMessages src.lines L).1) ⟨L, B⟩).ss.batchCount
      = B + ((batchLoop cfg env beh src true
          (chunkList (cfg.batchSizePairs * 2) (readMessages src.lines L).1)
          ⟨L, B⟩).uploads.filter (fun u => u.ok)).length := hinv.2.2.1
  have hss : (batchLoop cfg env beh src true
      (chunkList (cfg.batchSizePairs * 2) (readMessages src.lines L).1) ⟨L, B⟩).ss =
      (⟨L, B + ((batchLoop cfg env beh src true
          (chunkList (cfg.batchSizePairs * 2) (readMessages src.lines L).1)
          ⟨L, B⟩).uploads.filter (fun u => u.ok)).length⟩ : SessState) := by
    rw [show (batchLoop cfg env beh src true
        (chunkList (cfg.batchSizePairs * 2) (readMessages src.lines L).1) ⟨L, B⟩).ss =
        (⟨(batchLoop cfg env beh src true
            (chunkList (cfg.batchSizePairs * 2) (readMessages src.lines L).1) ⟨L, B⟩).ss.lastLine,
          (batchLoop cfg env beh src true
            (chunkList (cfg.batchSizePairs * 2) (readMessages src.lines L).1)
            ⟨L, B⟩).ss.batchCount⟩ : SessState) from rfl, h1, h2]
  have hP1 : lookupSess
      (SyncState.sessions (SrcOut.state (processSource cfg env beh st src))) src.key =
      some ⟨L, B + ((processSource cfg env beh st src).uploads.filter
        (fun u => u.ok)).length⟩ := by
    rw [hshape]
    dsimp only
    rw [hsb, hinv.1, hss]
  refine ⟨hP1, ?_⟩
  intro u hu v hv hok
  have hidx := processSource_upload_index_gt cfg env₂ beh₂
    (SrcOut.state (processSource cfg env beh st src)) src u hu
  rw [hP1] at hidx
  have hv' : v ∈ (batchLoop cfg env beh src true
      (chunkList (cfg.batchSizePairs * 2) (readMessages src.lines L).1) ⟨L, B⟩).uploads := by
    have : (processSource cfg env beh st src).uploads =
        (batchLoop cfg env beh src true
          (chunkList (cfg.batchSizePairs * 2) (readMessages src.lines L).1)
          ⟨L, B⟩).uploads := by
      rw [hshape]
      dsimp only
      rw [hsb]
    rw [this] at hv
    exact hv
  have hvle := hinv.2.2.2 v hv' hok
  rw [h2] at hvle
  have hfilter : ((processSource cfg env beh st src).uploads.filter
      (fun u => u.ok)).length =
      ((batchLoop cfg env beh src true
        (chunkList (cfg.batchSizePairs * 2) (readMessages src.lines L).1)
        ⟨L, B⟩).uploads.filter (fun u => u.ok)).length := by
    rw [hshape]
    dsimp only
    rw [hsb]
  rw [hfilter] at hidx
  dsimp only [Option.getD] at hidx
  omega

/-- Witness for C10 (amended): a Source present in the map with entry
`⟨0, 5⟩` whose pass succeeds at batch index 6 and fails at 7 ends with
`batchCount` advanced to 6 and cursor still 0. -/
theorem C10_witness :
    lookupSess statePresent.sessions src8.key = some ⟨0, 5⟩ ∧
    (processSource demoCfg demoEnv behB7 statePresent src8).aborted = true ∧
    lookupSess (SyncState.sessions (SrcOut.state
        (processSource demoCfg demoEnv behB7 statePresent src8))) src8.key =
      some ⟨0, 5 + ((processSource demoCfg demoEnv behB7 statePresent src8).uploads.filter
        (fun u => u.ok)).length⟩ :=
  ⟨by decide, by decide,
   (C10_amended_present_source_fresh_indexes demoCfg demoEnv demoEnv behB7 behB7
     statePresent src8 0 5 (by decide) (by decide)).1⟩

end SMSync
